import Mathlib

/-!
Shallow embedding of the interactive terminal-prompt engine of
`TerminalInput.ts` (the `YesNoKeyboardLoop`, `PasswordKeyboardLoop` and
`TerminalInput` facade).

Modelling conventions:
* Keystroke events (`readline.Key` plus the `character` argument of
  `onKeypress`) are modelled by `KeyEvent`.  The buffer-valued `character`
  is a `List Char` (JS string concatenation and per-code-unit iteration
  become list append and list recursion).
* The optional `key.name` and `key.sequence` strings are `Option String`.
  Within `TerminalInput.ts` an absent field and an empty-string field are
  observationally identical (both are falsy in every guard, and an empty
  string matches no `switch` case), so `none` stands for the JS falsy
  values `undefined` and `""`.
* Terminal writes of rendered text are returned as explicit values; pure
  cursor-movement control operations (`readline.cursorTo`, `clearLine`,
  `moveCursor`, hide/unhide cursor) act on the terminal, not on the byte
  stream of rendered characters, and carry no state the claims depend on.
* The `KeyboardLoop` base class is not among the provided sources.
  Modelled from the spec: `startAsync` delivers keystroke events one at a
  time, in arrival order, to `onKeypress`, and returns once `resolveAsync`
  has been called; the run functions below (`yesNoRunAux`, `pwRunAux`)
  encode exactly that, returning `none` for a loop that never resolves.
-/

namespace TerminalInput

/-- One keystroke event: the `character` string delivered to `onKeypress`
together with the `name`/`sequence` fields of `readline.Key`. -/
structure KeyEvent where
  character : List Char
  name : Option String
  sequence : Option String
deriving DecidableEq, Repr

/-! ## Confirmation prompt (`YesNoKeyboardLoop`) -/

/-- `YesNoKeyboardLoop.onKeypress` (lines 56-81).  The state is the
`result` field (`Option Bool` for `boolean | undefined`).  Returns the new
`result` together with whether `resolveAsync` was invoked on this event. -/
def yesNoOnKeypress (defaultValue : Option Bool) (result : Option Bool)
    (ev : KeyEvent) : Option Bool × Bool :=
  if result.isSome then (result, false)
  else
    let r :=
      if ev.name = some "y" then some true
      else if ev.name = some "n" then some false
      else if ev.name = some "enter" ∨ ev.name = some "return" then
        if defaultValue.isSome then defaultValue else result
      else result
    (r, r.isSome)

/-- Runs the keyboard loop on a list of keystroke events: deliver events in
order until `resolveAsync` is called; `some r` is the `result` field at the
moment of resolution, `none` means the loop never resolved. -/
def yesNoRunAux (defaultValue : Option Bool) :
    Option Bool → List KeyEvent → Option (Option Bool)
  | _, [] => none
  | result, ev :: rest =>
    let step := yesNoOnKeypress defaultValue result ev
    if step.2 = true then some step.1
    else yesNoRunAux defaultValue step.1 rest

/-- `TerminalInput.promptYesNo` (lines 208-212): start the loop with an
undefined `result` and await resolution. -/
def promptYesNo (defaultValue : Option Bool) (events : List KeyEvent) :
    Option (Option Bool) :=
  yesNoRunAux defaultValue none events

/-- The boolean value `promptYesNo` hands back through the non-null
assertion `keyboardLoop.result!`: the resolved result, flattened. -/
def yesNoResult (defaultValue : Option Bool) (events : List KeyEvent) :
    Option Bool :=
  (promptYesNo defaultValue events).bind id

/-- Effect of a single key on a `Waiting` confirmation prompt: `some b`
when the key resolves the prompt to `b`, `none` when it leaves it waiting.
This is the spec-side classifier of "resolving keys" used to state C1. -/
def yesNoKeyEffect (defaultValue : Option Bool) (ev : KeyEvent) : Option Bool :=
  if ev.name = some "y" then some true
  else if ev.name = some "n" then some false
  else if ev.name = some "enter" ∨ ev.name = some "return" then defaultValue
  else none

lemma yesNoOnKeypress_none (d : Option Bool) (ev : KeyEvent) :
    yesNoOnKeypress d none ev =
      (yesNoKeyEffect d ev, (yesNoKeyEffect d ev).isSome) := by
  unfold yesNoOnKeypress yesNoKeyEffect
  cases d <;> simp

lemma yesNoResult_eq_find (d : Option Bool) :
    ∀ events : List KeyEvent,
      yesNoResult d events =
        (events.find? fun e => (yesNoKeyEffect d e).isSome).bind
          (yesNoKeyEffect d)
  | [] => by simp [yesNoResult, promptYesNo, yesNoRunAux]
  | ev :: rest => by
    have ih := yesNoResult_eq_find d rest
    simp only [yesNoResult, promptYesNo] at ih ⊢
    cases h : yesNoKeyEffect d ev with
    | some b =>
      simp [yesNoRunAux, yesNoOnKeypress_none, h, List.find?_cons]
    | none =>
      simpa [yesNoRunAux, yesNoOnKeypress_none, h, List.find?_cons] using ih

lemma yesNoKeyEffect_eq_some (d : Option Bool) (b : Bool) (ev : KeyEvent) :
    yesNoKeyEffect d ev = some b ↔
      (b = true ∧ ev.name = some "y") ∨ (b = false ∧ ev.name = some "n") ∨
        ((ev.name = some "enter" ∨ ev.name = some "return") ∧ d = some b) := by
  unfold yesNoKeyEffect
  split_ifs with h1 h2 h3 <;> simp_all

/-! ## Masked-line prompt (`PasswordKeyboardLoop`) -/

/-- Mutable fields of `PasswordKeyboardLoop` that keystroke processing
touches: `result` (the typed buffer), `_printedY`, `_lastPrintedLength`.
`_startX` is fixed at `onStart` and passed as a parameter below. -/
structure PwState where
  result : List Char
  printedY : Nat
  lastPrintedLength : Nat
deriving DecidableEq, Repr

/-- `_getLineWrapWidth` (lines 97-99): `this.stderr.columns` when truthy,
otherwise 80.  `none` is an unreported width, `some 0` a reported zero
(both falsy in JS). -/
def getLineWrapWidth (columns : Option Nat) : Nat :=
  match columns with
  | some c => if c = 0 then 80 else c
  | none => 80

/-- The mask character actually used by the render pass (lines 164-165):
`'*'` when `passwordCharacter` is undefined, otherwise
`passwordCharacter.substr(0, 1)`. -/
def effectiveMask (passwordCharacter : Option (List Char)) : List Char :=
  match passwordCharacter with
  | none => ['*']
  | some s => s.take 1

/-- The render loop of `onKeypress` (lines 167-183): walk the buffer,
emitting one mask character (or the plaintext character when the mask is
empty) per buffer character; after each one advance `column`, and when
`column` reaches `width - 1` reset it to 0, bump `printedY` and emit a
line break.  Returns `(emitted text, final column, final printedY)`. -/
def renderLoop (pc : List Char) (width : Nat) :
    List Char → Nat → Nat → List Char × Nat × Nat
  | [], column, printedY => ([], column, printedY)
  | c :: rest, column, printedY =>
    let head := if pc = [] then [c] else pc
    if column + 1 ≥ width - 1 then
      let r := renderLoop pc width rest 0 (printedY + 1)
      (head ++ '\n' :: r.1, r.2)
    else
      let r := renderLoop pc width rest (column + 1) printedY
      (head ++ r.1, r.2)

/-- The full render pass (lines 141-190): re-render the buffer from
`startX`, returning the emitted text and the updated state
(`_printedY` recomputed, `_lastPrintedLength := result.length`; the
`needsClear` cursor bookkeeping performs no buffer writes). -/
def renderPass (passwordCharacter : Option (List Char)) (columns : Option Nat)
    (startX : Nat) (st : PwState) : List Char × PwState :=
  let r := renderLoop (effectiveMask passwordCharacter)
    (getLineWrapWidth columns) st.result startX 0
  (r.1, { result := st.result, printedY := r.2.2,
          lastPrintedLength := st.result.length })

/-- Printability classification of a keystroke (lines 128-135), written as
the source's chain of guards.  Recall `none` stands for a JS-falsy field. -/
def pwPrintable (ev : KeyEvent) : Bool :=
  if ev.character = [] then false
  else if ev.name ≠ none ∧ (ev.name.getD "").length ≠ 1 ∧
      ev.name ≠ some "space" then false
  else if ev.name = none ∧ ev.sequence = none then false
  else true

/-- Buffer mutation of one non-Enter keystroke (lines 124-139): backspace
drops the last character (`substring(0, length - 1)`), then a printable
event appends its character. -/
def pwNewResult (ev : KeyEvent) (result : List Char) : List Char :=
  let r := if ev.name = some "backspace" then result.dropLast else result
  if pwPrintable ev then r ++ ev.character else r

/-- State after a non-Enter keystroke: mutate the buffer, then run the
render pass. -/
def pwEditState (passwordCharacter : Option (List Char)) (columns : Option Nat)
    (startX : Nat) (st : PwState) (ev : KeyEvent) : PwState :=
  (renderPass passwordCharacter columns startX
    { st with result := pwNewResult ev st.result }).2

/-- Outcome of one `PasswordKeyboardLoop.onKeypress` call: either the loop
resolved (with the text written and the final `result`), or it keeps
editing (with the new state and the rendered text written). -/
inductive PwOutcome where
  | resolved (written : List Char) (result : List Char)
  | editing (st : PwState) (written : List Char)
deriving DecidableEq, Repr

/-- `PasswordKeyboardLoop.onKeypress` (lines 117-191). -/
def pwOnKeypress (passwordCharacter : Option (List Char)) (columns : Option Nat)
    (startX : Nat) (st : PwState) (ev : KeyEvent) : PwOutcome :=
  if ev.name = some "enter" ∨ ev.name = some "return" then
    PwOutcome.resolved ['\n'] st.result
  else
    PwOutcome.editing (pwEditState passwordCharacter columns startX st ev)
      ((renderPass passwordCharacter columns startX
        { st with result := pwNewResult ev st.result }).1)

/-- The state transition of one keystroke (unchanged state once resolved). -/
def pwStepState (passwordCharacter : Option (List Char)) (columns : Option Nat)
    (startX : Nat) (st : PwState) (ev : KeyEvent) : PwState :=
  match pwOnKeypress passwordCharacter columns startX st ev with
  | PwOutcome.resolved _ _ => st
  | PwOutcome.editing st' _ => st'

/-- State at loop start (`onStart` sets `result = ''`; lines 86-88 init the
counters to zero). -/
def pwInitState : PwState := { result := [], printedY := 0, lastPrintedLength := 0 }

/-- Runs the password loop on a list of keystroke events, stopping at the
first resolving event; `some r` is the resolved buffer. -/
def pwRunAux (passwordCharacter : Option (List Char)) (columns : Option Nat)
    (startX : Nat) : PwState → List KeyEvent → Option (List Char)
  | _, [] => none
  | st, ev :: rest =>
    match pwOnKeypress passwordCharacter columns startX st ev with
    | PwOutcome.resolved _ result => some result
    | PwOutcome.editing st' _ =>
      pwRunAux passwordCharacter columns startX st' rest

/-- `TerminalInput.promptPasswordLine` (lines 222-226): run the loop from
the initial state and return `keyboardLoop.result`. -/
def promptPasswordLine (passwordCharacter : Option (List Char))
    (columns : Option Nat) (startX : Nat) (events : List KeyEvent) :
    Option (List Char) :=
  pwRunAux passwordCharacter columns startX pwInitState events

/-! ## Helper lemmas -/

/-- Sample keystroke events used by concrete witnesses. -/
def evOf (c : Char) : KeyEvent :=
  { character := [c], name := some (String.mk [c]), sequence := some (String.mk [c]) }

def evReturn : KeyEvent := { character := ['\r'], name := some "return", sequence := some "\r" }

def evBackspace : KeyEvent :=
  { character := ['\x7f'], name := some "backspace", sequence := some "\x7f" }

lemma yesNoRunAux_isSome (d : Option Bool) :
    ∀ (events : List KeyEvent) (st r : Option Bool),
      yesNoRunAux d st events = some r → r.isSome = true
  | [], st, r => by simp [yesNoRunAux]
  | ev :: rest, st, r => by
    intro h
    rw [yesNoRunAux] at h
    split_ifs at h with hs
    · obtain rfl : (yesNoOnKeypress d st ev).1 = r := by
        simpa using h
      revert hs
      unfold yesNoOnKeypress
      split_ifs <;> simp
    · exact yesNoRunAux_isSome d rest _ r h

/-! ## Claims about the Confirmation Prompt -/

/-- C1: for every keystroke sequence fed to the confirmation prompt, the
returned result is `true` iff the first resolving key was `y`, or
`Enter`/`Return` with a configured default of `true`; it is `false` iff
that key was `n`, or `Enter`/`Return` with default `false`; and with no
configured default, an `Enter`/`Return` keystroke never resolves the
prompt (the state stays `Waiting`, modelled as `none`). -/
theorem yesNo_result_characterization (d : Option Bool) (events : List KeyEvent) :
    (yesNoResult d events = some true ↔
      ∃ ev, events.find? (fun e => (yesNoKeyEffect d e).isSome) = some ev ∧
        (ev.name = some "y" ∨
          ((ev.name = some "enter" ∨ ev.name = some "return") ∧ d = some true)))
  ∧ (yesNoResult d events = some false ↔
      ∃ ev, events.find? (fun e => (yesNoKeyEffect d e).isSome) = some ev ∧
        (ev.name = some "n" ∨
          ((ev.name = some "enter" ∨ ev.name = some "return") ∧ d = some false)))
  ∧ (d = none → ∀ ev : KeyEvent,
      (ev.name = some "enter" ∨ ev.name = some "return") →
        yesNoOnKeypress d none ev = (none, false)) := by
  refine ⟨?_, ?_, ?_⟩
  · rw [yesNoResult_eq_find, Option.bind_eq_some]
    refine exists_congr fun ev => and_congr_right fun _ => ?_
    rw [yesNoKeyEffect_eq_some]
    simp
  · rw [yesNoResult_eq_find, Option.bind_eq_some]
    refine exists_congr fun ev => and_congr_right fun _ => ?_
    rw [yesNoKeyEffect_eq_some]
    simp
  · rintro rfl ev h
    rcases h with h | h <;> simp [yesNoOnKeypress, h]

/-- Witness for C1: with default `true`, a single `Return` keystroke
resolves the prompt to `true`. -/
theorem yesNo_result_characterization_witness :
    yesNoResult (some true) [evReturn] = some true :=
  (yesNo_result_characterization (some true) [evReturn]).1.mpr
    ⟨evReturn, by decide, Or.inr ⟨Or.inr rfl, rfl⟩⟩

/-- C10: `resolveAsync` is only invoked after `result` has been assigned a
boolean: a keystroke that signals resolution leaves `result` defined, and
whenever the run of the loop resolves, the value behind the non-null
assertion in `promptYesNo` is a defined boolean. -/
theorem yesNo_resolved_result_defined (d : Option Bool) :
    (∀ (st : Option Bool) (ev : KeyEvent),
      (yesNoOnKeypress d st ev).2 = true → (yesNoOnKeypress d st ev).1.isSome = true)
  ∧ ∀ (events : List KeyEvent) (r : Option Bool),
      promptYesNo d events = some r → r.isSome = true := by
  constructor
  · intro st ev
    unfold yesNoOnKeypress
    split_ifs <;> simp
  · intro events r h
    exact yesNoRunAux_isSome d events none r h

/-- Witness for C10: a `y` keystroke resolves the loop and the resolved
result is defined. -/
theorem yesNo_resolved_result_defined_witness :
    (yesNoOnKeypress none none (evOf 'y')).1.isSome = true ∧
      ((some true : Option Bool)).isSome = true :=
  ⟨(yesNo_resolved_result_defined none).1 none (evOf 'y') (by decide),
    (yesNo_resolved_result_defined none).2 [evOf 'y'] (some true) (by decide)⟩

/-! ## Claims about the Masked-Line Prompt -/

lemma pwOnKeypress_nonEnter (pc : Option (List Char)) (columns : Option Nat)
    (startX : Nat) (st : PwState) (ev : KeyEvent)
    (h : ¬(ev.name = some "enter" ∨ ev.name = some "return")) :
    pwOnKeypress pc columns startX st ev =
      PwOutcome.editing (pwEditState pc columns startX st ev)
        ((renderPass pc columns startX
          { st with result := pwNewResult ev st.result }).1) := by
  simp [pwOnKeypress, h]

lemma pwStepState_nonEnter (pc : Option (List Char)) (columns : Option Nat)
    (startX : Nat) (st : PwState) (ev : KeyEvent)
    (h : ¬(ev.name = some "enter" ∨ ev.name = some "return")) :
    pwStepState pc columns startX st ev = pwEditState pc columns startX st ev := by
  simp [pwStepState, pwOnKeypress_nonEnter pc columns startX st ev h]

lemma pwPrintable_eq_false_of_name (ev : KeyEvent) (n : String)
    (hn : ev.name = some n) (hlen : n.length ≠ 1) (hsp : n ≠ "space") :
    pwPrintable ev = false := by
  unfold pwPrintable
  rw [hn]
  split_ifs with h1 h2 h3 <;> try rfl
  exact absurd ⟨by simp, by simpa using hlen, by simp [hsp]⟩ h2

lemma pwRunAux_split (pc : Option (List Char)) (columns : Option Nat)
    (startX : Nat) (k : KeyEvent) (evs₂ : List KeyEvent)
    (hk : k.name = some "enter" ∨ k.name = some "return") :
    ∀ (evs₁ : List KeyEvent) (st : PwState),
      (∀ e ∈ evs₁, ¬(e.name = some "enter" ∨ e.name = some "return")) →
      pwRunAux pc columns startX st (evs₁ ++ k :: evs₂) =
        some (List.foldl (pwStepState pc columns startX) st evs₁).result
  | [], st, _ => by
    simp [pwRunAux, pwOnKeypress, hk]
  | e :: evs₁, st, h => by
    have he := h e (List.mem_cons_self e evs₁)
    have ih := pwRunAux_split pc columns startX k evs₂ hk evs₁
      (pwEditState pc columns startX st e) (fun x hx => h x (List.mem_cons_of_mem e hx))
    rw [List.cons_append, pwRunAux, pwOnKeypress_nonEnter pc columns startX st e he,
      List.foldl_cons, pwStepState_nonEnter pc columns startX st e he]
    exact ih

/-- C2: an `Enter`/`Return` keystroke arriving while the masked prompt is
editing emits exactly one line break and resolves with the current buffer
as the result; consequently `promptPasswordLine` on a keystroke sequence
whose first `Enter`/`Return` follows the events `evs₁` returns exactly the
buffer those events accumulated. -/
theorem password_enter_resolves_buffer (pc : Option (List Char))
    (columns : Option Nat) (startX : Nat) :
    (∀ (st : PwState) (ev : KeyEvent),
      (ev.name = some "enter" ∨ ev.name = some "return") →
        pwOnKeypress pc columns startX st ev = PwOutcome.resolved ['\n'] st.result)
  ∧ ∀ (evs₁ : List KeyEvent) (k : KeyEvent) (evs₂ : List KeyEvent),
      (∀ e ∈ evs₁, ¬(e.name = some "enter" ∨ e.name = some "return")) →
      (k.name = some "enter" ∨ k.name = some "return") →
      promptPasswordLine pc columns startX (evs₁ ++ k :: evs₂) =
        some (List.foldl (pwStepState pc columns startX) pwInitState evs₁).result := by
  constructor
  · intro st ev h
    simp [pwOnKeypress, h]
  · intro evs₁ k evs₂ h hk
    exact pwRunAux_split pc columns startX k evs₂ hk evs₁ pwInitState h

/-- Witness for C2: typing `a` then `Return` returns the buffer `"a"`. -/
theorem password_enter_resolves_buffer_witness :
    promptPasswordLine (some ['*']) (some 80) 4 ([evOf 'a'] ++ evReturn :: []) =
      some (List.foldl (pwStepState (some ['*']) (some 80) 4) pwInitState
        [evOf 'a']).result := by
  refine (password_enter_resolves_buffer (some ['*']) (some 80) 4).2
    [evOf 'a'] evReturn [] ?_ (Or.inr rfl)
  intro e he
  simp only [List.mem_singleton] at he
  subst he
  decide

/-- C6: a keystroke is classified printable iff its character value is
non-empty, and it carries no (truthy) named key or its named key has
length 1 or is `space`, and it carries a named key or a raw sequence. -/
theorem password_printable_classification (ev : KeyEvent) :
    pwPrintable ev = true ↔
      ev.character ≠ [] ∧
        (ev.name = none ∨ (ev.name.getD "").length = 1 ∨ ev.name = some "space") ∧
        (ev.name ≠ none ∨ ev.sequence ≠ none) := by
  unfold pwPrintable
  split_ifs with h1 h2 h3 <;> simp_all
  tauto

/-- C7: backspace never drives the buffer to a negative length: on an
empty buffer it is a no-op, and on a non-empty buffer it removes exactly
the last character. -/
theorem password_backspace_safe (pc : Option (List Char)) (columns : Option Nat)
    (startX : Nat) (st : PwState) (ev : KeyEvent)
    (h : ev.name = some "backspace") :
    ∃ st' written,
      pwOnKeypress pc columns startX st ev = PwOutcome.editing st' written
      ∧ st'.result = st.result.dropLast
      ∧ (st.result = [] → st'.result = [])
      ∧ ∀ (xs : List Char) (x : Char), st.result = xs ++ [x] → st'.result = xs := by
  have hne : ¬(ev.name = some "enter" ∨ ev.name = some "return") := by
    rw [h]; decide
  have hpr : pwPrintable ev = false :=
    pwPrintable_eq_false_of_name ev "backspace" h (by decide) (by decide)
  refine ⟨pwEditState pc columns startX st ev, _,
    pwOnKeypress_nonEnter pc columns startX st ev hne, ?_, ?_, ?_⟩
  · simp [pwEditState, renderPass, pwNewResult, h, hpr]
  · intro hres
    simp [pwEditState, renderPass, pwNewResult, h, hpr, hres]
  · intro xs x hres
    simp [pwEditState, renderPass, pwNewResult, h, hpr, hres]

/-- Witness for C7: backspace on the buffer `"ab"` leaves `"a"`. -/
theorem password_backspace_safe_witness :
    ∃ st' written,
      pwOnKeypress (some ['*']) (some 80) 0 ⟨['a', 'b'], 0, 2⟩ evBackspace =
        PwOutcome.editing st' written
      ∧ st'.result = (['a', 'b'] : List Char).dropLast
      ∧ ((['a', 'b'] : List Char) = [] → st'.result = [])
      ∧ ∀ (xs : List Char) (x : Char), ['a', 'b'] = xs ++ [x] → st'.result = xs :=
  password_backspace_safe (some ['*']) (some 80) 0 ⟨['a', 'b'], 0, 2⟩ evBackspace rfl

/-- C9: the render pass is idempotent: re-running it on the unchanged
buffer writes byte-identical output and leaves the state fixed, because
the emitted text depends only on the buffer, the start column and the
terminal width, never on the mutable `printedY`/`lastPrintedLength`
bookkeeping. -/
theorem password_render_idempotent (pc : Option (List Char)) (columns : Option Nat)
    (startX : Nat) (st : PwState) :
    renderPass pc columns startX (renderPass pc columns startX st).2 =
      renderPass pc columns startX st := rfl

lemma renderLoop_filter_star (width : Nat) :
    ∀ (chars : List Char) (column printedY : Nat),
      ((renderLoop ['*'] width chars column printedY).1).filter
          (fun c => c != '\n') =
        List.replicate chars.length '*'
  | [], _, _ => by simp [renderLoop]
  | c :: rest, column, printedY => by
    rw [renderLoop]
    by_cases hw : column + 1 ≥ width - 1 <;>
      simp [hw, renderLoop_filter_star width rest, List.replicate_succ]

lemma renderLoop_filter_echo (width : Nat) :
    ∀ (chars : List Char) (column printedY : Nat), '\n' ∉ chars →
      ((renderLoop [] width chars column printedY).1).filter
          (fun c => c != '\n') = chars
  | [], _, _, _ => by simp [renderLoop]
  | c :: rest, column, printedY, h => by
    have hc : (c != '\n') = true := by
      simp only [List.mem_cons, not_or] at h
      simp [bne_iff_ne, Ne.symm h.1]
    have hrest : '\n' ∉ rest := by
      simp only [List.mem_cons, not_or] at h
      exact h.2
    rw [renderLoop]
    by_cases hw : column + 1 ≥ width - 1 <;>
      simp [hw, hc, renderLoop_filter_echo width rest _ _ hrest]

lemma renderLoop_printedY_eq (pc : List Char) (width : Nat) :
    ∀ (chars : List Char) (column printedY : Nat), column < width - 1 →
      (renderLoop pc width chars column printedY).2.2 =
        printedY + (column + chars.length) / (width - 1)
  | [], column, printedY, h => by
    simp [renderLoop, Nat.div_eq_of_lt h]
  | c :: rest, column, printedY, h => by
    have hpos : 0 < width - 1 := Nat.lt_of_le_of_lt (Nat.zero_le _) h
    rw [renderLoop]
    by_cases hw : column + 1 ≥ width - 1
    · have hcol : column + 1 = width - 1 := Nat.le_antisymm h hw
      simp only [hw, if_true]
      rw [renderLoop_printedY_eq pc width rest 0 (printedY + 1) hpos]
      have harith : column + (rest.length + 1) = (width - 1) + rest.length := by
        omega
      simp only [Nat.zero_add, List.length_cons, harith, Nat.add_div_left _ hpos]
      omega
    · have hlt : column + 1 < width - 1 := lt_of_not_ge hw
      simp only [hw, if_false]
      rw [renderLoop_printedY_eq pc width rest (column + 1) printedY hlt]
      have harith : column + 1 + rest.length = column + (rest.length + 1) := by
        omega
      simp [harith]

/-- C3: after a sequence of printable keystrokes, with mask character `*`,
the text written by the render pass, with the inserted line breaks
stripped, is a run of `*` characters whose count equals the current buffer
length — regardless of the terminal width. -/
theorem password_render_all_stars (columns : Option Nat) (startX : Nat)
    (evs : List KeyEvent) (e : KeyEvent)
    (_hevs : ∀ x ∈ evs, pwPrintable x = true) (he : pwPrintable e = true) :
    ∃ st' written,
      pwOnKeypress (some ['*']) columns startX
          (List.foldl (pwStepState (some ['*']) columns startX) pwInitState evs) e =
        PwOutcome.editing st' written
      ∧ written.filter (fun c => c != '\n') =
          List.replicate st'.result.length '*' := by
  have hne : ¬(e.name = some "enter" ∨ e.name = some "return") := by
    rintro (hn | hn)
    · rw [pwPrintable_eq_false_of_name e "enter" hn (by decide) (by decide)] at he
      exact Bool.false_ne_true he
    · rw [pwPrintable_eq_false_of_name e "return" hn (by decide) (by decide)] at he
      exact Bool.false_ne_true he
  set st := List.foldl (pwStepState (some ['*']) columns startX) pwInitState evs
  refine ⟨pwEditState (some ['*']) columns startX st e, _,
    pwOnKeypress_nonEnter (some ['*']) columns startX st e hne, ?_⟩
  show ((renderLoop (effectiveMask (some ['*'])) (getLineWrapWidth columns)
      (pwNewResult e st.result) startX 0).1).filter (fun c => c != '\n') =
    List.replicate (pwNewResult e st.result).length '*'
  exact renderLoop_filter_star (getLineWrapWidth columns) _ startX 0

/-- Witness for C3: a single printable `a` keystroke renders one `*`. -/
theorem password_render_all_stars_witness :
    ∃ st' written,
      pwOnKeypress (some ['*']) (some 10) 5
          (List.foldl (pwStepState (some ['*']) (some 10) 5) pwInitState []) (evOf 'a') =
        PwOutcome.editing st' written
      ∧ written.filter (fun c => c != '\n') =
          List.replicate st'.result.length '*' :=
  password_render_all_stars (some 10) 5 [] (evOf 'a') (by simp) (by decide)

/-- C8: mask-character configuration: an undefined mask renders as `*`; a
mask longer than one character is silently truncated to its first
character; an empty mask echoes the typed buffer in plaintext. -/
theorem password_mask_configuration :
    (effectiveMask none = ['*'])
  ∧ (∀ l : List Char, 1 < l.length → effectiveMask (some l) = l.take 1)
  ∧ ∀ (columns : Option Nat) (startX : Nat) (st : PwState), '\n' ∉ st.result →
      ((renderPass (some []) columns startX st).1).filter (fun c => c != '\n') =
        st.result := by
  refine ⟨rfl, fun l _ => rfl, ?_⟩
  intro columns startX st h
  show ((renderLoop (effectiveMask (some [])) (getLineWrapWidth columns)
      st.result startX 0).1).filter (fun c => c != '\n') = st.result
  exact renderLoop_filter_echo (getLineWrapWidth columns) st.result startX 0 h

/-- Witness for C8: a three-character mask truncates to its first
character, and the empty mask echoes the buffer `"hi"` literally. -/
theorem password_mask_configuration_witness :
    effectiveMask (some ['a', 'b', 'c']) = (['a', 'b', 'c'] : List Char).take 1
  ∧ ((renderPass (some []) (some 80) 0 ⟨['h', 'i'], 0, 0⟩).1).filter
      (fun c => c != '\n') = ['h', 'i'] :=
  ⟨password_mask_configuration.2.1 ['a', 'b', 'c'] (by decide),
    password_mask_configuration.2.2 (some 80) 0 ⟨['h', 'i'], 0, 0⟩ (by decide)⟩

/-- C4 counterexample: at terminal width 10 with starting column 9 (a
reachable start, since the start column is the prefix length modulo the
width 10) and buffer length 1, the render pass emits one line break while
the claimed law `floor((9+1)/(10-1)) - floor(9/(10-1))` yields 0. -/
theorem password_wrap_law_counterexample :
    (renderPass (some ['*']) (some 10) 9 ⟨['a'], 0, 0⟩).2.printedY = 1
  ∧ (renderPass (some ['*']) (some 10) 9 ⟨['a'], 0, 0⟩).1.count '\n' = 1
  ∧ (9 + 1) / (getLineWrapWidth (some 10) - 1) -
      9 / (getLineWrapWidth (some 10) - 1) = 0 := by
  decide

/-- C4 (amended): the wrap-count law holds for every terminal width `W`,
buffer length `L` and starting column below `W - 1`: the render pass
emits exactly `floor((startColumn + L) / (W - 1)) -
floor(startColumn / (W - 1))` line breaks.  (At `startColumn = W - 1`,
which the source can reach, the first character wraps immediately and the
law undercounts by one, as the counterexample shows.) -/
theorem password_wrap_law (pc : Option (List Char)) (columns : Option Nat)
    (startX : Nat) (st : PwState)
    (h : startX < getLineWrapWidth columns - 1) :
    (renderPass pc columns startX st).2.printedY =
      (startX + st.result.length) / (getLineWrapWidth columns - 1) -
        startX / (getLineWrapWidth columns - 1) := by
  show (renderLoop (effectiveMask pc) (getLineWrapWidth columns)
      st.result startX 0).2.2 = _
  rw [renderLoop_printedY_eq (effectiveMask pc) (getLineWrapWidth columns)
    st.result startX 0 h, Nat.div_eq_of_lt h]
  simp

/-- Witness for C4 (amended): width 10, start column 5, buffer `"abcdef"`:
the render pass emits `floor(11/9) - floor(5/9) = 1` line break. -/
theorem password_wrap_law_witness :
    (renderPass (some ['*']) (some 10) 5
        ⟨['a', 'b', 'c', 'd', 'e', 'f'], 0, 0⟩).2.printedY =
      (5 + (['a', 'b', 'c', 'd', 'e', 'f'] : List Char).length) /
          (getLineWrapWidth (some 10) - 1) -
        5 / (getLineWrapWidth (some 10) - 1) :=
  password_wrap_law (some ['*']) (some 10) 5
    ⟨['a', 'b', 'c', 'd', 'e', 'f'], 0, 0⟩ (by decide)

/-- C5 counterexample: masked prompt, mask `*`, width 10, start column 5,
typing `"abcdef"`.  The wrap does not happen at the 5th character: already
after the 4th keystroke `printedRowCount` is 1 (the column counter hit
`9 = 10 - 1` during the 4th character and wrapped), and during the render
of the first five characters the column counter ends at 1, not 9. -/
theorem password_scenario3_counterexample :
    (List.foldl (pwStepState (some ['*']) (some 10) 5) pwInitState
        [evOf 'a', evOf 'b', evOf 'c', evOf 'd']).printedY = 1
  ∧ (renderLoop (effectiveMask (some ['*'])) (getLineWrapWidth (some 10))
        (List.foldl (pwStepState (some ['*']) (some 10) 5) pwInitState
          [evOf 'a', evOf 'b', evOf 'c', evOf 'd', evOf 'e']).result 5 0).2.1 = 1 := by
  decide

/-- C5 (amended): masked prompt, mask `*`, width 10, start column 5,
typing `"abcdef"`: the column counter reaches 9 during the 4th character
(it stands at 8 after three characters), at which point a wrap occurs
(`printedRowCount` becomes 1, having been 0 after the 3rd keystroke), and
after all six characters `printedRowCount` equals 1. -/
theorem password_scenario3_amended :
    (List.foldl (pwStepState (some ['*']) (some 10) 5) pwInitState
        [evOf 'a', evOf 'b', evOf 'c']).printedY = 0
  ∧ (renderLoop (effectiveMask (some ['*'])) (getLineWrapWidth (some 10))
        (List.foldl (pwStepState (some ['*']) (some 10) 5) pwInitState
          [evOf 'a', evOf 'b', evOf 'c']).result 5 0).2.1 = 8
  ∧ (List.foldl (pwStepState (some ['*']) (some 10) 5) pwInitState
        [evOf 'a', evOf 'b', evOf 'c', evOf 'd']).printedY = 1
  ∧ (List.foldl (pwStepState (some ['*']) (some 10) 5) pwInitState
        [evOf 'a', evOf 'b', evOf 'c', evOf 'd', evOf 'e', evOf 'f']).result =
      ['a', 'b', 'c', 'd', 'e', 'f']
  ∧ (List.foldl (pwStepState (some ['*']) (some 10) 5) pwInitState
        [evOf 'a', evOf 'b', evOf 'c', evOf 'd', evOf 'e', evOf 'f']).printedY = 1 := by
  decide

end TerminalInput
